import Mathlib

/-!
Shallow embedding of the inventory-management program (`src/app.py`).

Modelling conventions:
* Python `float` prices are modelled as `ℚ` (JSON numeric values round-trip
  exactly through `json.dump`/`json.load`, so the structural model works at
  the level of numeric values, not their decimal text).
* Python `int` quantities are modelled as `Int`.
* JSON values reachable in the records the program reads and writes are
  modelled by `JValue` (null, string, integer, non-integer number).  Records
  (JSON objects) are association lists `List (String × JValue)`; a JSON file
  is either unparseable text or a parsed list of records (`FileData`).
  Records whose required common fields (`product_id`, `name`, `price`,
  `quantity`) carry values of an unexpected JSON type are modelled as a
  malformed-data failure.
* Python exceptions are modelled by `Except PyError`; every mutating
  `Inventory` method is state-passing: it returns the `Except` outcome
  together with the inventory as left behind by the call (unchanged when the
  Python method would raise before mutating).
* `datetime.date` is modelled by `PyDate`; `datetime.strptime(s, "%Y-%m-%d")`
  is modelled by `parseDate` (4-digit year, 1-2 digit month in 1..12,
  1-2 digit day validated against the month length, full-string match),
  and `date.isoformat()` by `isoformat`.
-/

/-- A JSON value as far as the program's records are concerned. -/
inductive JValue where
  | jnull
  | jstr (s : String)
  | jint (n : Int)
  | jnum (q : ℚ)
  deriving DecidableEq, Repr

/-- The error outcomes of the Python code: `KeyError` on a duplicate id,
`KeyError` on a missing id, `ValueError` from `Product.sell`, `ValueError`
from the unknown-type branch of `from_dict`, `KeyError`/`ValueError` from
malformed records or unparseable files, and `TypeError`/`AttributeError`
from using a `None` expiry date as a date. -/
inductive PyError where
  | duplicateKey
  | notFound
  | insufficientStock
  | unknownVariant
  | malformedData
  | typeError
  deriving DecidableEq, Repr

/-- A calendar date as stored by `datetime.date`. -/
structure PyDate where
  year : Nat
  month : Nat
  day : Nat
  deriving DecidableEq, Repr

def isLeapYear (y : Nat) : Bool :=
  y % 4 == 0 && (y % 100 != 0 || y % 400 == 0)

def daysInMonth (y m : Nat) : Nat :=
  if m == 2 then (if isLeapYear y then 29 else 28)
  else if m == 4 || m == 6 || m == 9 || m == 11 then 30
  else 31

/-- The dates representable by `datetime.date` (year 1..9999, real day). -/
def validDateb (d : PyDate) : Bool :=
  1 ≤ d.year && d.year ≤ 9999 && 1 ≤ d.month && d.month ≤ 12 &&
    1 ≤ d.day && d.day ≤ daysInMonth d.year d.month

/-- `datetime.date.__lt__`: lexicographic on (year, month, day). -/
def dateLtb (a b : PyDate) : Bool :=
  a.year < b.year ||
    (a.year == b.year &&
      (a.month < b.month || (a.month == b.month && a.day < b.day)))

def digitChar (n : Nat) : Char := Char.ofNat (48 + n)

def digitVal (c : Char) : Nat := c.toNat - 48

/-- `date.isoformat()`: zero-padded `YYYY-MM-DD`. -/
def isoformat (d : PyDate) : String :=
  ⟨[digitChar (d.year / 1000), digitChar (d.year / 100 % 10),
    digitChar (d.year / 10 % 10), digitChar (d.year % 10), '-',
    digitChar (d.month / 10), digitChar (d.month % 10), '-',
    digitChar (d.day / 10), digitChar (d.day % 10)]⟩

/-- Range checks done by the `%m`/`%d` patterns and the `datetime.date`
constructor after `strptime` has matched the digits. -/
def mkDate (y m d : Nat) : Except PyError PyDate :=
  if 1 ≤ y ∧ 1 ≤ m ∧ m ≤ 12 ∧ 1 ≤ d ∧ d ≤ daysInMonth y m then
    .ok ⟨y, m, d⟩
  else .error .malformedData

/-- `datetime.strptime(s, "%Y-%m-%d").date()`: exactly four digits of year,
one or two digits of month and of day separated by `-`, nothing left over,
with the resulting numbers validated by `mkDate`. -/
def parseDate (s : String) : Except PyError PyDate :=
  match s.data with
  | [y1, y2, y3, y4, s1, m1, m2, s2, d1, d2] =>
      if s1 = '-' ∧ s2 = '-' ∧ y1.isDigit ∧ y2.isDigit ∧ y3.isDigit ∧
          y4.isDigit ∧ m1.isDigit ∧ m2.isDigit ∧ d1.isDigit ∧ d2.isDigit then
        mkDate (digitVal y1 * 1000 + digitVal y2 * 100 + digitVal y3 * 10 + digitVal y4)
          (digitVal m1 * 10 + digitVal m2) (digitVal d1 * 10 + digitVal d2)
      else .error .malformedData
  | [y1, y2, y3, y4, s1, m1, m2, s2, d1] =>
      if s1 = '-' ∧ s2 = '-' ∧ y1.isDigit ∧ y2.isDigit ∧ y3.isDigit ∧
          y4.isDigit ∧ m1.isDigit ∧ m2.isDigit ∧ d1.isDigit then
        mkDate (digitVal y1 * 1000 + digitVal y2 * 100 + digitVal y3 * 10 + digitVal y4)
          (digitVal m1 * 10 + digitVal m2) (digitVal d1)
      else if s1 = '-' ∧ m2 = '-' ∧ y1.isDigit ∧ y2.isDigit ∧ y3.isDigit ∧
          y4.isDigit ∧ m1.isDigit ∧ s2.isDigit ∧ d1.isDigit then
        mkDate (digitVal y1 * 1000 + digitVal y2 * 100 + digitVal y3 * 10 + digitVal y4)
          (digitVal m1) (digitVal s2 * 10 + digitVal d1)
      else .error .malformedData
  | [y1, y2, y3, y4, s1, m1, s2, d1] =>
      if s1 = '-' ∧ s2 = '-' ∧ y1.isDigit ∧ y2.isDigit ∧ y3.isDigit ∧
          y4.isDigit ∧ m1.isDigit ∧ d1.isDigit then
        mkDate (digitVal y1 * 1000 + digitVal y2 * 100 + digitVal y3 * 10 + digitVal y4)
          (digitVal m1) (digitVal d1)
      else .error .malformedData
  | _ => .error .malformedData

/-- The variant-specific payload of the three `Product` subclasses.
`warranty_years`, `brand`, `size`, `material` hold whatever JSON value the
record carried (`None` when absent), exactly as the Python constructors
store them unchecked.  `expiry_date` is either a parsed date or `None`. -/
inductive PVariant where
  | electronics (warranty_years brand : JValue)
  | grocery (expiry_date : Option PyDate)
  | clothing (size material : JValue)
  deriving DecidableEq, Repr

/-- A `Product` object: the common fields of the abstract base class plus
the variant payload of the concrete subclass. -/
structure Product where
  product_id : String
  name : String
  price : ℚ
  quantity : Int
  variant : PVariant
  deriving DecidableEq, Repr

/-- `type(p).__name__` for the three concrete classes. -/
def typeName (p : Product) : String :=
  match p.variant with
  | .electronics _ _ => "Electronics"
  | .grocery _ => "Grocery"
  | .clothing _ _ => "Clothing"

/-- `Product.restock`: unconditional increment, returns the message. -/
def Product.restock (p : Product) (amount : Int) : String × Product :=
  let p2 : Product := { p with quantity := p.quantity + amount }
  ("Restocked " ++ toString amount ++ " units of '" ++ p.name ++
      "'. Current stock: " ++ toString p2.quantity ++ ".", p2)

/-- `Product.sell`: raises `ValueError` when `quantity` exceeds the stock,
otherwise decrements the stock and returns the message. -/
def Product.sell (p : Product) (quantity : Int) : Except PyError String × Product :=
  if quantity > p.quantity then
    (.error .insufficientStock, p)
  else
    (.ok ("Sold " ++ toString quantity ++ " units of '" ++ p.name ++ "'."),
      { p with quantity := p.quantity - quantity })

/-- `Product.get_total_value`: `price * quantity`. -/
def Product.get_total_value (p : Product) : ℚ :=
  p.price * (p.quantity : ℚ)

/-- `isinstance(p, Grocery) and p.is_expired()`: `False` for non-Grocery
products; for a Grocery, `expiry_date < date.today()`, which raises a
`TypeError` when the stored expiry date is `None`. -/
def isExpiredCheck (p : Product) (today : PyDate) : Except PyError Bool :=
  match p.variant with
  | .grocery (some d) => .ok (dateLtb d today)
  | .grocery none => .error .typeError
  | _ => .ok false

/-- A JSON object (one serialized product record). -/
abbrev Record : Type := List (String × JValue)

/-- `data.get(k)`: the value under `k`, or `None` when absent.  A field
stored as `None` and an absent field are indistinguishable to `get`. -/
def jget (data : Record) (k : String) : JValue :=
  match data.find? (fun kv => kv.1 == k) with
  | some kv => kv.2
  | none => .jnull

/-- Whether the record has an entry for key `k`. -/
def recHasKey (data : Record) (k : String) : Bool :=
  (data.find? (fun kv => kv.1 == k)).isSome

/-- `data[k]`: raises `KeyError` when the key is absent. -/
def jreq (data : Record) (k : String) : Except PyError JValue :=
  match data.find? (fun kv => kv.1 == k) with
  | some kv => .ok kv.2
  | none => .error .malformedData

/-- `data[k]` expected to be a string (modelling cutoff: a non-string value
in a field the program treats as a string is a malformed-data failure). -/
def reqStr (data : Record) (k : String) : Except PyError String :=
  match jreq data k with
  | .ok (.jstr s) => .ok s
  | .ok _ => .error .malformedData
  | .error e => .error e

/-- `data[k]` expected to be a number (an integer JSON literal is accepted
and read at its rational value, as Python arithmetic would treat it). -/
def reqNum (data : Record) (k : String) : Except PyError ℚ :=
  match jreq data k with
  | .ok (.jnum q) => .ok q
  | .ok (.jint n) => .ok (n : ℚ)
  | .ok _ => .error .malformedData
  | .error e => .error e

/-- `data[k]` expected to be an integer. -/
def reqInt (data : Record) (k : String) : Except PyError Int :=
  match jreq data k with
  | .ok (.jint n) => .ok n
  | .ok _ => .error .malformedData
  | .error e => .error e

/-- The accesses `data["product_id"]`, `data["name"]`, `data["price"]`,
`data["quantity"]` common to every branch of `Product.from_dict`, in the
order the Python code performs them. -/
def readCommon (data : Record) : Except PyError (String × String × ℚ × Int) := do
  let pid ← reqStr data "product_id"
  let nm ← reqStr data "name"
  let pr ← reqNum data "price"
  let q ← reqInt data "quantity"
  return (pid, nm, pr, q)

/-- The `Grocery.__init__` handling of the `expiry_date` argument coming
from a record: a string is parsed with `strptime` (raising `ValueError` on a
malformed date), `None` (absent key) is stored unchanged.  Modelling
cutoff: other JSON types in this field are treated as malformed data. -/
def readExpiry : JValue → Except PyError (Option PyDate)
  | .jnull => .ok none
  | .jstr s =>
      match parseDate s with
      | .ok d => .ok (some d)
      | .error e => .error e
  | _ => .error .malformedData

/-- `Product.from_dict`: dispatch on `data.get("type")`; the unknown-tag
branch raises `ValueError`.  Variant-specific fields are read with `get`
(absent becomes `None`). -/
def Product.from_dict (data : Record) : Except PyError Product :=
  if jget data "type" = JValue.jstr "Electronics" then do
    let c ← readCommon data
    return ⟨c.1, c.2.1, c.2.2.1, c.2.2.2,
      .electronics (jget data "warranty_years") (jget data "brand")⟩
  else if jget data "type" = JValue.jstr "Grocery" then do
    let c ← readCommon data
    let e ← readExpiry (jget data "expiry_date")
    return ⟨c.1, c.2.1, c.2.2.1, c.2.2.2, .grocery e⟩
  else if jget data "type" = JValue.jstr "Clothing" then do
    let c ← readCommon data
    return ⟨c.1, c.2.1, c.2.2.1, c.2.2.2,
      .clothing (jget data "size") (jget data "material")⟩
  else .error .unknownVariant

/-- The common part written by `Product.to_dict`. -/
def baseRec (t pid nm : String) (pr : ℚ) (q : Int) : Record :=
  [("type", .jstr t), ("product_id", .jstr pid), ("name", .jstr nm),
    ("price", .jnum pr), ("quantity", .jint q)]

/-- The subclass `to_dict` overrides: the base dictionary updated with the
variant-specific fields.  `Grocery.to_dict` calls `expiry_date.isoformat()`,
which raises `AttributeError` when the stored expiry date is `None`. -/
def Product.to_dict (p : Product) : Except PyError Record :=
  match p.variant with
  | .electronics w b =>
      .ok (baseRec (typeName p) p.product_id p.name p.price p.quantity ++
        [("warranty_years", w), ("brand", b)])
  | .grocery (some d) =>
      .ok (baseRec (typeName p) p.product_id p.name p.price p.quantity ++
        [("expiry_date", .jstr (isoformat d))])
  | .grocery none => .error .typeError
  | .clothing s m =>
      .ok (baseRec (typeName p) p.product_id p.name p.price p.quantity ++
        [("size", s), ("material", m)])

/-- The inventory: a Python dict modelled as an insertion-ordered
association list with unique keys maintained by the operations. -/
structure Inventory where
  products : List (String × Product)
  deriving DecidableEq, Repr

/-- Membership test `k in dict`. -/
def dictHasKey (l : List (String × Product)) (k : String) : Bool :=
  l.any (fun kv => kv.1 == k)

/-- `dict[k]` as an `Option`. -/
def dictGet (l : List (String × Product)) (k : String) : Option Product :=
  match l.find? (fun kv => kv.1 == k) with
  | some kv => some kv.2
  | none => none

/-- `dict[k] = v`: replaces the value in place when the key is present,
otherwise appends (Python dicts keep insertion order). -/
def dictInsert (l : List (String × Product)) (k : String) (p : Product) :
    List (String × Product) :=
  if dictHasKey l k then
    l.map (fun kv => if kv.1 == k then (k, p) else kv)
  else l ++ [(k, p)]

/-- `del dict[k]`. -/
def dictDel (l : List (String × Product)) (k : String) : List (String × Product) :=
  l.filter (fun kv => !(kv.1 == k))

/-- `Inventory.add_product`: `KeyError` when the id is already present,
otherwise store under `product.get_id()`. -/
def Inventory.add_product (inv : Inventory) (p : Product) :
    Except PyError Unit × Inventory :=
  if dictHasKey inv.products p.product_id then (.error .duplicateKey, inv)
  else (.ok (), ⟨inv.products ++ [(p.product_id, p)]⟩)

/-- `Inventory.remove_product`: `KeyError` when absent. -/
def Inventory.remove_product (inv : Inventory) (pid : String) :
    Except PyError Unit × Inventory :=
  if dictHasKey inv.products pid then (.ok (), ⟨dictDel inv.products pid⟩)
  else (.error .notFound, inv)

/-- `Inventory.search_by_type`: products whose class name equals the query
up to ASCII letter case. -/
def Inventory.search_by_type (inv : Inventory) (product_type : String) :
    List Product :=
  ((inv.products.map Prod.snd).filter
    (fun p => (typeName p).toLower == product_type.toLower))

/-- `Inventory.list_all_products`. -/
def Inventory.list_all_products (inv : Inventory) : List Product :=
  inv.products.map Prod.snd

/-- `Inventory.sell_product`: `KeyError` when absent, else delegate to
`Product.sell` (the dict holds the mutated object on success and the
untouched object when `sell` raises). -/
def Inventory.sell_product (inv : Inventory) (pid : String) (quantity : Int) :
    Except PyError String × Inventory :=
  match dictGet inv.products pid with
  | none => (.error .notFound, inv)
  | some p =>
      match p.sell quantity with
      | (.error e, _) => (.error e, inv)
      | (.ok msg, p2) => (.ok msg, ⟨dictInsert inv.products pid p2⟩)

/-- `Inventory.restock_product`: `KeyError` when absent, else delegate. -/
def Inventory.restock_product (inv : Inventory) (pid : String) (quantity : Int) :
    Except PyError String × Inventory :=
  match dictGet inv.products pid with
  | none => (.error .notFound, inv)
  | some p =>
      (.ok (p.restock quantity).1,
        ⟨dictInsert inv.products pid (p.restock quantity).2⟩)

/-- `Inventory.total_inventory_value`. -/
def Inventory.total_inventory_value (inv : Inventory) : ℚ :=
  (inv.products.map (fun kv => kv.2.get_total_value)).sum

/-- The loop of `Inventory.remove_expired_products`: iterate over a snapshot
of the items, deleting expired groceries from the live dict; a `TypeError`
from `is_expired` aborts the loop, keeping the deletions made so far. -/
def sweepGo (today : PyDate) :
    List (String × Product) → List (String × Product) →
      Except PyError (List Product) × List (String × Product)
  | [], cur => (.ok [], cur)
  | (pid, p) :: rest, cur =>
      match isExpiredCheck p today with
      | .error e => (.error e, cur)
      | .ok true =>
          match sweepGo today rest (dictDel cur pid) with
          | (.ok l, c) => (.ok (p :: l), c)
          | (.error e, c) => (.error e, c)
      | .ok false => sweepGo today rest cur

/-- `Inventory.remove_expired_products` (parameterised by `date.today()`). -/
def Inventory.remove_expired_products (inv : Inventory) (today : PyDate) :
    Except PyError (List Product) × Inventory :=
  ((sweepGo today inv.products inv.products).1,
    ⟨(sweepGo today inv.products inv.products).2⟩)

/-- The list comprehension in `Inventory.save_to_file`, serializing the dict
values in order; the first `to_dict` failure aborts the save. -/
def dumpRecords : List (String × Product) → Except PyError (List Record)
  | [] => .ok []
  | kv :: rest =>
      match kv.2.to_dict with
      | .error e => .error e
      | .ok r =>
          match dumpRecords rest with
          | .error e => .error e
          | .ok rs => .ok (r :: rs)

/-- `Inventory.save_to_file`: the serialized content written to the file
(the file-system write itself is outside the model). -/
def Inventory.save_to_file (inv : Inventory) : Except PyError (List Record) :=
  dumpRecords inv.products

/-- What `json.load` produced from the file: unparseable text, or a JSON
array of records. -/
inductive FileData where
  | malformed
  | json (items : List Record)
  deriving Repr

/-- The dict comprehension in `Inventory.load_from_file`: deserialize every
record, stopping at the first failure. -/
def loadRecords : List Record → Except PyError (List Product)
  | [] => .ok []
  | r :: rs =>
      match Product.from_dict r with
      | .error e => .error e
      | .ok p =>
          match loadRecords rs with
          | .error e => .error e
          | .ok ps => .ok (p :: ps)

/-- Building the new `_products` dict from the deserialized records, keyed
by `item["product_id"]`; a repeated key overwrites the earlier entry. -/
def dictBuild (ps : List Product) : List (String × Product) :=
  ps.foldl (fun acc p => dictInsert acc p.product_id p) []

/-- `Inventory.load_from_file`: the comprehension is evaluated in full
before `self._products` is assigned, so any failure leaves the collection
untouched. -/
def Inventory.load_from_file (inv : Inventory) (fd : FileData) :
    Except PyError Unit × Inventory :=
  match fd with
  | .malformed => (.error .malformedData, inv)
  | .json items =>
      match loadRecords items with
      | .error e => (.error e, inv)
      | .ok ps => (.ok (), ⟨dictBuild ps⟩)

/-- `save_to_file` then `load_from_file` of the written content into a
fresh inventory. -/
def saveLoad (inv : Inventory) : Except PyError Unit × Inventory :=
  match inv.save_to_file with
  | .error e => (.error e, ⟨[]⟩)
  | .ok recs => Inventory.load_from_file ⟨[]⟩ (.json recs)

/-! ### Specification-side predicates -/

/-- Whether an `Except` outcome is a success. -/
def exceptOk {α : Type} : Except PyError α → Bool
  | .ok _ => true
  | .error _ => false

/-- The products `remove_expired_products` is meant to remove: Grocery
items whose expiry date is strictly before today. -/
def expiredb (p : Product) (today : PyDate) : Bool :=
  match p.variant with
  | .grocery (some d) => dateLtb d today
  | _ => false

/-- A Grocery product whose expiry date is an actual date (not `None`);
trivially true for the other variants. -/
def groceryDated (p : Product) : Bool :=
  match p.variant with
  | .grocery none => false
  | _ => true

/-- Well-formed product as persisted data: any non-Grocery product, or a
Grocery with a representable expiry date. -/
def productWFb (p : Product) : Bool :=
  match p.variant with
  | .grocery (some d) => validDateb d
  | .grocery none => false
  | _ => true

/-- Case-insensitive string equality, the reading of "equals `t` up to
letter case" used by the search claim. -/
def eqIgnoreCase (a b : String) : Bool :=
  a.toLower == b.toLower

/-- All stored quantities are non-negative. -/
def allQuantitiesNonneg (inv : Inventory) : Bool :=
  inv.products.all (fun kv => decide (0 ≤ kv.2.quantity))

/-- The last product in `ps` bearing id `k`, if any. -/
def lastMatch (ps : List Product) (k : String) : Option Product :=
  ps.reverse.find? (fun p => p.product_id == k)

/-- Key membership in a list of keys. -/
def keyMem (k : String) (ks : List String) : Bool :=
  ks.any (fun x => x == k)

/-- Deleting a list of keys from a dict, in order. -/
def delKeys (cur : List (String × Product)) (ks : List String) :
    List (String × Product) :=
  ks.foldl dictDel cur

/-- Inventory states reachable from an empty store by operations satisfying
their documented preconditions: products are added with non-negative
quantity, sell and restock are called with positive amounts; removal and
the expiry sweep carry no precondition.  Failed operations leave the state
they produced (their second component) reachable as well. -/
inductive Reachable : Inventory → Prop
  | init : Reachable ⟨[]⟩
  | add {inv inv' : Inventory} {p : Product} {r : Except PyError Unit} :
      Reachable inv → 0 ≤ p.quantity → inv.add_product p = (r, inv') →
      Reachable inv'
  | remove {inv inv' : Inventory} {pid : String} {r : Except PyError Unit} :
      Reachable inv → inv.remove_product pid = (r, inv') → Reachable inv'
  | sell {inv inv' : Inventory} {pid : String} {q : Int}
      {r : Except PyError String} :
      Reachable inv → 0 < q → inv.sell_product pid q = (r, inv') →
      Reachable inv'
  | restock {inv inv' : Inventory} {pid : String} {q : Int}
      {r : Except PyError String} :
      Reachable inv → 0 < q → inv.restock_product pid q = (r, inv') →
      Reachable inv'
  | sweep {inv inv' : Inventory} {today : PyDate}
      {r : Except PyError (List Product)} :
      Reachable inv → inv.remove_expired_products today = (r, inv') →
      Reachable inv'

/-- Witness fixture: a store with a Grocery expiring 2024-06-14, a Grocery
expiring 2024-06-16 and an Electronics item. -/
def invSweepW : Inventory :=
  ⟨[("g1", ⟨"g1", "Milk", 2, 4, .grocery (some ⟨2024, 6, 14⟩)⟩),
    ("g2", ⟨"g2", "Eggs", 3, 2, .grocery (some ⟨2024, 6, 16⟩)⟩),
    ("e1", ⟨"e1", "Laptop", 5, 1, .electronics .jnull .jnull⟩)]⟩

/-- Witness fixture: the reference day 2024-06-15. -/
def todayW : PyDate := ⟨2024, 6, 15⟩

/-- Witness fixture: a store with one product of each variant, all
well-formed. -/
def invRoundW : Inventory :=
  ⟨[("e1", ⟨"e1", "Laptop", 5, 3, .electronics (.jint 2) (.jstr "Acme")⟩),
    ("g1", ⟨"g1", "Milk", 2, 4, .grocery (some ⟨2024, 5, 1⟩)⟩),
    ("c1", ⟨"c1", "Shirt", 7, 1, .clothing (.jstr "M") (.jstr "Cotton")⟩)]⟩

/-! ### Theorems -/

/-- **C3.** `Product.sell` fails with InsufficientStock exactly when the
requested quantity exceeds the stock; on failure the product is unchanged;
when the request is at most the stock (including equality, which leaves the
stock at 0) the sale succeeds and decrements the stock by exactly the
requested quantity. -/
theorem sell_insufficient_iff (p : Product) (q : Int) (hq : 0 < q) :
    ((p.sell q).1 = .error .insufficientStock ↔ p.quantity < q) ∧
    (p.quantity < q → (p.sell q).2 = p) ∧
    (q ≤ p.quantity →
      exceptOk (p.sell q).1 = true ∧
      (p.sell q).2.quantity = p.quantity - q) := by
  unfold Product.sell
  by_cases h : q > p.quantity
  · simp [h, exceptOk]
  · simp [h, exceptOk]

/-- Witness for C3: stock 5, selling 5 succeeds and leaves 0; the failure
condition is equivalent to `5 < 5`, which is false. -/
theorem sell_insufficient_iff_witness :
    ((Product.sell ⟨"e1", "Laptop", 5, 5, .electronics .jnull .jnull⟩ 5).1 =
        .error .insufficientStock ↔ (5 : Int) < 5) ∧
    ((5 : Int) < 5 →
      (Product.sell ⟨"e1", "Laptop", 5, 5, .electronics .jnull .jnull⟩ 5).2 =
        ⟨"e1", "Laptop", 5, 5, .electronics .jnull .jnull⟩) ∧
    ((5 : Int) ≤ 5 →
      exceptOk (Product.sell ⟨"e1", "Laptop", 5, 5,
          .electronics .jnull .jnull⟩ 5).1 = true ∧
      (Product.sell ⟨"e1", "Laptop", 5, 5,
          .electronics .jnull .jnull⟩ 5).2.quantity = 5 - 5) :=
  sell_insufficient_iff ⟨"e1", "Laptop", 5, 5, .electronics .jnull .jnull⟩ 5
    (by decide)

/-- **C7.** `add_product` fails with DuplicateKey, leaving the collection
unchanged, exactly when the id is already present; otherwise it succeeds
and appends the product. -/
theorem add_product_duplicate_key (inv : Inventory) (p : Product) :
    ((inv.add_product p).1 = .ok () ↔
      dictHasKey inv.products p.product_id = false) ∧
    (dictHasKey inv.products p.product_id = true →
      inv.add_product p = (.error .duplicateKey, inv)) ∧
    (dictHasKey inv.products p.product_id = false →
      inv.add_product p = (.ok (), ⟨inv.products ++ [(p.product_id, p)]⟩)) := by
  unfold Inventory.add_product
  by_cases h : dictHasKey inv.products p.product_id
  · simp [h]
  · simp [h]

/-- Witness for C7: adding an id that is already stored fails with
DuplicateKey and leaves the store as it was. -/
theorem add_product_duplicate_key_witness :
    Inventory.add_product
        ⟨[("e1", ⟨"e1", "Laptop", 5, 3, .electronics .jnull .jnull⟩)]⟩
        ⟨"e1", "Tablet", 9, 1, .electronics .jnull .jnull⟩ =
      (.error .duplicateKey,
        ⟨[("e1", ⟨"e1", "Laptop", 5, 3, .electronics .jnull .jnull⟩)]⟩) :=
  (add_product_duplicate_key
      ⟨[("e1", ⟨"e1", "Laptop", 5, 3, .electronics .jnull .jnull⟩)]⟩
      ⟨"e1", "Tablet", 9, 1, .electronics .jnull .jnull⟩).2.1 (by decide)

/-- **C8.** `restock(a)` then `sell(a)` succeeds and returns the quantity
to its original value, for any positive amount and any product with the
non-negative quantity the data model guarantees. -/
theorem restock_then_sell_roundtrip (p : Product) (a : Int) (ha : 0 < a)
    (hq : 0 ≤ p.quantity) :
    exceptOk (((p.restock a).2).sell a).1 = true ∧
    (((p.restock a).2).sell a).2.quantity = p.quantity := by
  unfold Product.restock Product.sell
  have h : ¬(a > p.quantity + a) := by omega
  simp [h, exceptOk]

/-- Witness for C8: quantity 3, restock 2 then sell 2 gives back 3. -/
theorem restock_then_sell_roundtrip_witness :
    exceptOk (((Product.restock ⟨"c1", "Shirt", 7, 3,
        .clothing .jnull .jnull⟩ 2).2).sell 2).1 = true ∧
    (((Product.restock ⟨"c1", "Shirt", 7, 3,
        .clothing .jnull .jnull⟩ 2).2).sell 2).2.quantity = 3 :=
  restock_then_sell_roundtrip ⟨"c1", "Shirt", 7, 3, .clothing .jnull .jnull⟩ 2
    (by decide) (by decide)

/-- A member of an inserted dict is the inserted pair or an old member. -/
theorem mem_dictInsert {l : List (String × Product)} {k : String} {p : Product}
    {kv : String × Product} (h : kv ∈ dictInsert l k p) :
    kv = (k, p) ∨ kv ∈ l := by
  unfold dictInsert at h
  split at h
  · obtain ⟨a, ha, hif⟩ := List.mem_map.mp h
    by_cases hak : (a.1 == k) = true
    · rw [if_pos hak] at hif
      exact Or.inl hif.symm
    · rw [if_neg hak] at hif
      exact Or.inr (hif ▸ ha)
  · rcases List.mem_append.mp h with h1 | h1
    · exact Or.inr h1
    · simp only [List.mem_singleton] at h1
      exact Or.inl h1

/-- A successful dict lookup returns the value of a stored entry. -/
theorem dictGet_some_mem {l : List (String × Product)} {k : String}
    {p : Product} (h : dictGet l k = some p) : ∃ kv ∈ l, kv.2 = p := by
  unfold dictGet at h
  cases hf : l.find? (fun kv => kv.1 == k) with
  | none => rw [hf] at h; cases h
  | some kv =>
    rw [hf] at h
    injection h with h2
    exact ⟨kv, List.mem_of_find?_eq_some hf, h2⟩

/-- The expiry sweep only ever deletes entries: every entry of the final
dict was an entry of the dict the loop started from. -/
theorem sweepGo_snd_subset (today : PyDate) :
    ∀ (l cur : List (String × Product)) (kv : String × Product),
      kv ∈ (sweepGo today l cur).2 → kv ∈ cur := by
  intro l
  induction l with
  | nil => intro cur kv h; exact h
  | cons head rest ih =>
    obtain ⟨pid, p⟩ := head
    intro cur kv h
    unfold sweepGo at h
    cases hc : isExpiredCheck p today with
    | error e => rw [hc] at h; exact h
    | ok b =>
      rw [hc] at h
      cases b with
      | false => exact ih cur kv h
      | true =>
        cases hs : sweepGo today rest (dictDel cur pid) with
        | mk res c =>
          rw [hs] at h
          have hkv : kv ∈ (sweepGo today rest (dictDel cur pid)).2 := by
            rw [hs]
            cases res <;> exact h
          have := ih (dictDel cur pid) kv hkv
          exact (List.mem_filter.mp this).1

/-- Every product in a reachable inventory has non-negative quantity. -/
theorem quantities_nonneg_aux {inv : Inventory} (h : Reachable inv) :
    ∀ kv ∈ inv.products, 0 ≤ kv.2.quantity := by
  induction h with
  | init => intro kv hkv; cases hkv
  | add hR hp he ih =>
    unfold Inventory.add_product at he
    split at he
    · cases he; exact ih
    · cases he
      intro kv hkv
      rcases List.mem_append.mp hkv with h1 | h1
      · exact ih kv h1
      · simp only [List.mem_singleton] at h1
        rw [h1]
        exact hp
  | remove hR he ih =>
    unfold Inventory.remove_product at he
    split at he
    · cases he
      intro kv hkv
      exact ih kv (List.mem_filter.mp hkv).1
    · cases he; exact ih
  | sell hR hq he ih =>
    unfold Inventory.sell_product at he
    split at he
    · cases he; exact ih
    · split at he
      · cases he; exact ih
      · cases he
        rename_i p hget msg p2 hsell
        intro kv hkv
        rcases mem_dictInsert hkv with h1 | h1
        · rw [h1]
          unfold Product.sell at hsell
          split at hsell
          · simp at hsell
          · rename_i hcond
            injection hsell with hs1 hs2
            rw [← hs2]
            simp only []
            omega
        · exact ih kv h1
  | restock hR hq he ih =>
    unfold Inventory.restock_product at he
    split at he
    · cases he; exact ih
    · cases he
      rename_i p hget
      intro kv hkv
      rcases mem_dictInsert hkv with h1 | h1
      · rw [h1]
        obtain ⟨kv0, hkv0, hkv0p⟩ := dictGet_some_mem hget
        have h0 : 0 ≤ p.quantity := hkv0p ▸ ih kv0 hkv0
        unfold Product.restock
        simp only []
        omega
      · exact ih kv h1
  | sweep hR he ih =>
    unfold Inventory.remove_expired_products at he
    cases he
    intro kv hkv
    exact ih kv (sweepGo_snd_subset _ _ _ kv hkv)

/-- **C4.** In every inventory reachable by operations satisfying their
preconditions (adds with non-negative quantity, sells and restocks with
positive amounts, removals and sweeps), every stored quantity is
non-negative; a sell that would drive a quantity negative is rejected
without effect, so no operation ever leaves a negative stock. -/
theorem reachable_quantities_nonneg (inv : Inventory) (h : Reachable inv) :
    allQuantitiesNonneg inv = true := by
  have haux := quantities_nonneg_aux h
  unfold allQuantitiesNonneg
  rw [List.all_eq_true]
  intro kv hkv
  exact decide_eq_true (haux kv hkv)

/-- Witness for C4: the store obtained by adding a product with stock 3 and
selling 2 of it is reachable, and its quantities are non-negative. -/
theorem reachable_quantities_nonneg_witness :
    allQuantitiesNonneg
      ⟨[("e1", ⟨"e1", "Laptop", 5, 1, .electronics .jnull .jnull⟩)]⟩ = true :=
  reachable_quantities_nonneg
    ⟨[("e1", ⟨"e1", "Laptop", 5, 1, .electronics .jnull .jnull⟩)]⟩
    (@Reachable.sell
      ⟨[("e1", ⟨"e1", "Laptop", 5, 3, .electronics .jnull .jnull⟩)]⟩
      ⟨[("e1", ⟨"e1", "Laptop", 5, 1, .electronics .jnull .jnull⟩)]⟩
      "e1" 2 (.ok "Sold 2 units of 'Laptop'.")
      (@Reachable.add ⟨[]⟩
        ⟨[("e1", ⟨"e1", "Laptop", 5, 3, .electronics .jnull .jnull⟩)]⟩
        ⟨"e1", "Laptop", 5, 3, .electronics .jnull .jnull⟩ (.ok ())
        Reachable.init (by decide) rfl)
      (by decide) rfl)

/-- If any record of the list fails to deserialize, the whole
comprehension fails. -/
theorem loadRecords_fails {items : List Record} {r : Record} (hr : r ∈ items)
    (hf : exceptOk (Product.from_dict r) = false) :
    exceptOk (loadRecords items) = false := by
  induction items with
  | nil => cases hr
  | cons a rest ih =>
    rcases List.mem_cons.mp hr with h1 | h1
    · subst h1
      unfold loadRecords
      cases hfa : Product.from_dict r with
      | error e => rfl
      | ok p => rw [hfa] at hf; simp [exceptOk] at hf
    · unfold loadRecords
      cases hfa : Product.from_dict a with
      | error e => rfl
      | ok p =>
        have h2 := ih h1
        cases hl : loadRecords rest with
        | error e => rfl
        | ok ps => rw [hl] at h2; simp [exceptOk] at h2

/-- **C1.** `load_from_file` is all-or-nothing: whenever the file content
holds a record that fails to deserialize, the load reports an error and the
collection is exactly what it was before the call; likewise when the file
text does not parse at all. -/
theorem load_from_file_all_or_nothing (inv : Inventory) (items : List Record)
    (r : Record) (hr : r ∈ items)
    (hf : exceptOk (Product.from_dict r) = false) :
    exceptOk (inv.load_from_file (.json items)).1 = false ∧
    (inv.load_from_file (.json items)).2 = inv ∧
    inv.load_from_file .malformed = (.error .malformedData, inv) := by
  have hl := loadRecords_fails hr hf
  simp only [Inventory.load_from_file]
  cases hlr : loadRecords items with
  | error e => refine ⟨?_, ?_, ?_⟩ <;> trivial
  | ok ps => rw [hlr] at hl; simp [exceptOk] at hl

/-- Witness for C1: a one-record file whose record has the unknown tag
`Widget` fails to load into a non-empty store and leaves it untouched. -/
theorem load_from_file_all_or_nothing_witness :
    exceptOk (Inventory.load_from_file
        ⟨[("e1", ⟨"e1", "Laptop", 5, 3, .electronics .jnull .jnull⟩)]⟩
        (.json [[("type", .jstr "Widget")]])).1 = false ∧
    (Inventory.load_from_file
        ⟨[("e1", ⟨"e1", "Laptop", 5, 3, .electronics .jnull .jnull⟩)]⟩
        (.json [[("type", .jstr "Widget")]])).2 =
      ⟨[("e1", ⟨"e1", "Laptop", 5, 3, .electronics .jnull .jnull⟩)]⟩ ∧
    Inventory.load_from_file
        ⟨[("e1", ⟨"e1", "Laptop", 5, 3, .electronics .jnull .jnull⟩)]⟩
        .malformed =
      (.error .malformedData,
        ⟨[("e1", ⟨"e1", "Laptop", 5, 3, .electronics .jnull .jnull⟩)]⟩) :=
  load_from_file_all_or_nothing
    ⟨[("e1", ⟨"e1", "Laptop", 5, 3, .electronics .jnull .jnull⟩)]⟩
    [[("type", .jstr "Widget")]] [("type", .jstr "Widget")]
    (List.mem_cons_self _ _) rfl

/-- Unfolding lemma for dict lookup. -/
theorem dictGet_cons (a : String × Product) (l : List (String × Product))
    (k : String) :
    dictGet (a :: l) k = if (a.1 == k) = true then some a.2 else dictGet l k := by
  unfold dictGet
  rw [List.find?_cons]
  by_cases h : (a.1 == k) = true
  · simp [h]
  · simp [h]

/-- Replacing the value under a key `k2` does not change lookups of a
different key. -/
theorem dictGet_mapReplace (rest : List (String × Product)) (k2 k : String)
    (p : Product) (hne : ¬k2 = k) :
    dictGet (rest.map (fun kv => if kv.1 == k2 then (k2, p) else kv)) k =
      dictGet rest k := by
  induction rest with
  | nil => rfl
  | cons a rest ih =>
    rw [List.map_cons, dictGet_cons, dictGet_cons]
    by_cases ha : (a.1 == k2) = true
    · rw [if_pos ha]
      have ha2 : a.1 = k2 := by simpa using ha
      have h1 : ((k2, p).1 == k) = false := by
        simp [beq_eq_false_iff_ne, hne]
      have h2 : (a.1 == k) = false := by
        simp [beq_eq_false_iff_ne, ha2, hne]
      rw [h1, h2]
      simpa using ih
    · rw [if_neg ha]
      by_cases hk : (a.1 == k) = true
      · rw [if_pos hk, if_pos hk]
      · rw [if_neg hk, if_neg hk]
        exact ih

/-- Unfolding lemma for dict key membership. -/
theorem dictHasKey_cons (a : String × Product) (l : List (String × Product))
    (k2 : String) :
    dictHasKey (a :: l) k2 = ((a.1 == k2) || dictHasKey l k2) := by
  unfold dictHasKey
  rw [List.any_cons]

/-- Two guarded branches commute when their guards cannot both hold. -/
theorem if_comm_of_not_both {α : Type} (A B : Bool) (x y z : α)
    (h : ¬(A = true ∧ B = true)) :
    (if A = true then x else if B = true then y else z) =
      (if B = true then y else if A = true then x else z) := by
  cases A <;> cases B <;> simp_all

/-- Lookup after an insert-or-replace: the inserted key now maps to the new
value, every other key is unaffected. -/
theorem dictGet_dictInsert (d : List (String × Product)) (k2 k : String)
    (p : Product) :
    dictGet (dictInsert d k2 p) k =
      if (k2 == k) = true then some p else dictGet d k := by
  induction d with
  | nil =>
    by_cases h : k2 = k
    · subst h; simp [dictInsert, dictHasKey, dictGet_cons, dictGet]
    · simp [dictInsert, dictHasKey, dictGet_cons, dictGet,
        beq_eq_false_iff_ne, h]
  | cons a rest ih =>
    by_cases ha : (a.1 == k2) = true
    · have ha2 : a.1 = k2 := by simpa using ha
      have hk : dictHasKey (a :: rest) k2 = true := by
        rw [dictHasKey_cons, ha, Bool.true_or]
      unfold dictInsert
      rw [if_pos hk, List.map_cons, if_pos ha, dictGet_cons]
      by_cases hkk : k2 = k
      · subst hkk
        simp
      · have h1 : ((k2, p).1 == k) = false := by
          simp [beq_eq_false_iff_ne, hkk]
        have h2 : (a.1 == k) = false := by
          simp [beq_eq_false_iff_ne, ha2, hkk]
        rw [h1, dictGet_mapReplace rest k2 k p hkk, dictGet_cons, h2]
        simp
    · have ha' : (a.1 == k2) = false := by simpa using ha
      by_cases hrest : dictHasKey rest k2 = true
      · have hk : dictHasKey (a :: rest) k2 = true := by
          rw [dictHasKey_cons, hrest, Bool.or_true]
        have hins : dictInsert rest k2 p =
            rest.map (fun kv => if kv.1 == k2 then (k2, p) else kv) := by
          unfold dictInsert
          rw [if_pos hrest]
        unfold dictInsert
        rw [if_pos hk, List.map_cons, if_neg ha, dictGet_cons, ← hins, ih,
          dictGet_cons]
        exact if_comm_of_not_both (a.1 == k) (k2 == k) (some a.2) (some p)
          (dictGet rest k)
          (by rintro ⟨u, v⟩
              have hu : a.1 = k := by simpa using u
              have hv : k2 = k := by simpa using v
              rw [← hv] at hu
              exact absurd hu (by simpa using ha))
      · have hrest' : dictHasKey rest k2 = false := by simpa using hrest
        have hk : dictHasKey (a :: rest) k2 = false := by
          rw [dictHasKey_cons, ha', hrest', Bool.or_false]
        have hins : dictInsert rest k2 p = rest ++ [(k2, p)] := by
          unfold dictInsert
          rw [if_neg (by simp [hrest'])]
        unfold dictInsert
        rw [if_neg (by simp [hk]), List.cons_append, dictGet_cons, ← hins, ih,
          dictGet_cons]
        exact if_comm_of_not_both (a.1 == k) (k2 == k) (some a.2) (some p)
          (dictGet rest k)
          (by rintro ⟨u, v⟩
              have hu : a.1 = k := by simpa using u
              have hv : k2 = k := by simpa using v
              rw [← hv] at hu
              exact absurd hu (by simpa using ha))

/-- Lookup in the dict built from a product list: the last product bearing
the id wins. -/
theorem dictGet_dictBuild (ps : List Product) (k : String) :
    dictGet (dictBuild ps) k = lastMatch ps k := by
  induction ps using List.reverseRecOn with
  | nil => rfl
  | append_singleton ps p ih =>
    unfold dictBuild at ih ⊢
    rw [List.foldl_append]
    simp only [List.foldl_cons, List.foldl_nil]
    rw [dictGet_dictInsert]
    unfold lastMatch at ih ⊢
    rw [List.reverse_append]
    simp only [List.reverse_singleton, List.singleton_append, List.find?_cons]
    by_cases h : (p.product_id == k) = true
    · simp [h]
    · simp only [Bool.not_eq_true] at h
      simp [h, ih]

/-- **C10.** `load_from_file` does not enforce id uniqueness: when every
record deserializes, the load succeeds (no DuplicateKey), and each id maps
to the last deserialized product bearing it in file order. -/
theorem load_duplicate_ids_last_wins (inv : Inventory) (items : List Record)
    (ps : List Product) (k : String) (h : loadRecords items = .ok ps) :
    inv.load_from_file (.json items) = (.ok (), ⟨dictBuild ps⟩) ∧
    dictGet (inv.load_from_file (.json items)).2.products k = lastMatch ps k := by
  simp only [Inventory.load_from_file]
  rw [h]
  exact ⟨rfl, dictGet_dictBuild ps k⟩

/-- Witness for C10: two records sharing id `x`; the load succeeds and `x`
maps to the second record's product. -/
theorem load_duplicate_ids_last_wins_witness :
    Inventory.load_from_file ⟨[]⟩
        (.json [baseRec "Electronics" "x" "A" 1 1,
                baseRec "Electronics" "x" "B" 2 2]) =
      (.ok (), ⟨dictBuild [⟨"x", "A", 1, 1, .electronics .jnull .jnull⟩,
                           ⟨"x", "B", 2, 2, .electronics .jnull .jnull⟩]⟩) ∧
    dictGet (Inventory.load_from_file ⟨[]⟩
        (.json [baseRec "Electronics" "x" "A" 1 1,
                baseRec "Electronics" "x" "B" 2 2])).2.products "x" =
      lastMatch [⟨"x", "A", 1, 1, .electronics .jnull .jnull⟩,
                 ⟨"x", "B", 2, 2, .electronics .jnull .jnull⟩] "x" :=
  load_duplicate_ids_last_wins ⟨[]⟩
    [baseRec "Electronics" "x" "A" 1 1, baseRec "Electronics" "x" "B" 2 2]
    [⟨"x", "A", 1, 1, .electronics .jnull .jnull⟩,
     ⟨"x", "B", 2, 2, .electronics .jnull .jnull⟩] "x" rfl

/-- **C9.** `search_by_type` returns exactly the stored products whose
class name equals the query up to letter case; being a total function it
never fails. -/
theorem search_by_type_case_insensitive (inv : Inventory) (t : String)
    (p : Product) :
    p ∈ inv.search_by_type t ↔
      p ∈ inv.list_all_products ∧ eqIgnoreCase (typeName p) t = true := by
  unfold Inventory.search_by_type Inventory.list_all_products eqIgnoreCase
  simp [List.mem_filter]

/-- Witness for C9: searching `"grocery"` in a two-product store finds the
Grocery product (tag `Grocery`, matched case-insensitively). -/
theorem search_by_type_case_insensitive_witness :
    (⟨"g1", "Milk", 2, 4, .grocery (some ⟨2030, 1, 1⟩)⟩ : Product) ∈
        Inventory.search_by_type
          ⟨[("e1", ⟨"e1", "Laptop", 5, 3, .electronics .jnull .jnull⟩),
            ("g1", ⟨"g1", "Milk", 2, 4, .grocery (some ⟨2030, 1, 1⟩)⟩)]⟩
          "grocery" ↔
      (⟨"g1", "Milk", 2, 4, .grocery (some ⟨2030, 1, 1⟩)⟩ : Product) ∈
          Inventory.list_all_products
            ⟨[("e1", ⟨"e1", "Laptop", 5, 3, .electronics .jnull .jnull⟩),
              ("g1", ⟨"g1", "Milk", 2, 4, .grocery (some ⟨2030, 1, 1⟩)⟩)]⟩ ∧
        eqIgnoreCase
          (typeName ⟨"g1", "Milk", 2, 4, .grocery (some ⟨2030, 1, 1⟩)⟩)
          "grocery" = true :=
  search_by_type_case_insensitive
    ⟨[("e1", ⟨"e1", "Laptop", 5, 3, .electronics .jnull .jnull⟩),
      ("g1", ⟨"g1", "Milk", 2, 4, .grocery (some ⟨2030, 1, 1⟩)⟩)]⟩
    "grocery" ⟨"g1", "Milk", 2, 4, .grocery (some ⟨2030, 1, 1⟩)⟩

/-- A dated product's expiry check never raises and agrees with
`expiredb`. -/
theorem isExpiredCheck_dated (p : Product) (today : PyDate)
    (h : groceryDated p = true) :
    isExpiredCheck p today = .ok (expiredb p today) := by
  cases hv : p.variant with
  | electronics w b => simp [isExpiredCheck, expiredb, hv]
  | clothing s m => simp [isExpiredCheck, expiredb, hv]
  | grocery e =>
    cases e with
    | some d => simp [isExpiredCheck, expiredb, hv]
    | none => simp [groceryDated, hv] at h

/-- On a snapshot of dated products, the sweep loop returns the expired
entries in order and deletes exactly their keys from the live dict. -/
theorem sweepGo_eq (today : PyDate) :
    ∀ (l cur : List (String × Product)),
      (∀ kv ∈ l, groceryDated kv.2 = true) →
      sweepGo today l cur =
        (.ok ((l.filter (fun kv => expiredb kv.2 today)).map Prod.snd),
          delKeys cur ((l.filter (fun kv => expiredb kv.2 today)).map Prod.fst)) := by
  intro l
  induction l with
  | nil =>
    intro cur hd
    simp [sweepGo, delKeys]
  | cons a rest ih =>
    intro cur hd
    obtain ⟨pid, p⟩ := a
    have hdp : groceryDated p = true := hd (pid, p) (List.mem_cons_self _ _)
    have hdr : ∀ kv ∈ rest, groceryDated kv.2 = true :=
      fun kv hkv => hd kv (List.mem_cons_of_mem _ hkv)
    unfold sweepGo
    rw [isExpiredCheck_dated p today hdp]
    cases hexp : expiredb p today with
    | true =>
      rw [ih (dictDel cur pid) hdr]
      simp only [List.filter_cons, hexp, if_pos, List.map_cons]
      simp [delKeys]
    | false =>
      rw [ih cur hdr]
      simp [List.filter_cons, hexp]

/-- String equality tests are symmetric. -/
theorem strBeq_comm (a b : String) : (a == b) = (b == a) := by
  by_cases h : a = b
  · subst h; rfl
  · rw [beq_eq_false_iff_ne.mpr h, beq_eq_false_iff_ne.mpr (Ne.symm h)]

/-- Deleting a set of keys one by one is filtering them all out. -/
theorem delKeys_eq_filter :
    ∀ (ks : List String) (cur : List (String × Product)),
      delKeys cur ks = cur.filter (fun kv => !(keyMem kv.1 ks)) := by
  intro ks
  induction ks with
  | nil =>
    intro cur
    simp [delKeys, keyMem]
  | cons k ks ih =>
    intro cur
    unfold delKeys at ih ⊢
    rw [List.foldl_cons, ih (dictDel cur k)]
    unfold dictDel
    rw [List.filter_filter]
    apply List.filter_congr
    intro kv hkv
    simp only [keyMem, List.any_cons, Bool.not_or, strBeq_comm kv.1 k]
    exact Bool.and_comm _ _

/-- In a dict with pairwise-distinct keys, entries are determined by their
key. -/
theorem key_inj {l : List (String × Product)}
    (h : (l.map Prod.fst).Nodup) :
    ∀ a ∈ l, ∀ b ∈ l, a.1 = b.1 → a = b := by
  induction l with
  | nil => intro a ha; cases ha
  | cons x rest ih =>
    rw [List.map_cons, List.nodup_cons] at h
    obtain ⟨hx, hrest⟩ := h
    intro a ha b hb hab
    rcases List.mem_cons.mp ha with h1 | h1 <;> rcases List.mem_cons.mp hb with h2 | h2
    · rw [h1, h2]
    · exfalso
      apply hx
      rw [h1] at hab
      rw [hab]
      exact List.mem_map_of_mem Prod.fst h2
    · exfalso
      apply hx
      rw [h2] at hab
      rw [← hab]
      exact List.mem_map_of_mem Prod.fst h1
    · exact ih hrest a h1 b h2 hab

/-- With unique keys, an entry's key is among the expired keys exactly when
the entry itself is expired. -/
theorem keyMem_expired_iff {l : List (String × Product)} {today : PyDate}
    (hnd : (l.map Prod.fst).Nodup) :
    ∀ kv ∈ l,
      keyMem kv.1 ((l.filter (fun kv => expiredb kv.2 today)).map Prod.fst) =
        expiredb kv.2 today := by
  intro kv hkv
  cases hexp : expiredb kv.2 today with
  | true =>
    unfold keyMem
    refine (List.any_eq_true).mpr ⟨kv.1, ?_, by simp⟩
    exact List.mem_map_of_mem Prod.fst (List.mem_filter.mpr ⟨hkv, hexp⟩)
  | false =>
    unfold keyMem
    rw [← Bool.not_eq_true]
    intro hany
    rcases (List.any_eq_true).mp hany with ⟨x, hx, hxk⟩
    rcases List.mem_map.mp hx with ⟨kv2, hkv2, hfst⟩
    obtain ⟨hkv2l, hkv2e⟩ := List.mem_filter.mp hkv2
    have hkk : kv2.1 = kv.1 := by
      rw [hfst]
      simpa using hxk
    have heq : kv2 = kv := key_inj hnd kv2 hkv2l kv hkv hkk
    rw [heq] at hkv2e
    rw [hkv2e] at hexp
    cases hexp

/-- Removing the expired entries decreases the total value by exactly the
sum of their values. -/
theorem sweep_total (l : List (String × Product)) (today : PyDate) :
    Inventory.total_inventory_value ⟨l.filter (fun kv => !(expiredb kv.2 today))⟩ =
      Inventory.total_inventory_value ⟨l⟩ -
        (((l.filter (fun kv => expiredb kv.2 today)).map Prod.snd).map
          Product.get_total_value).sum := by
  induction l with
  | nil => simp [Inventory.total_inventory_value]
  | cons a rest ih =>
    cases hexp : expiredb a.2 today with
    | true =>
      simp only [Inventory.total_inventory_value, List.filter_cons, hexp,
        Bool.not_true, List.map_cons, List.sum_cons] at ih ⊢
      simp only [Bool.false_eq_true, if_false, if_true]
      simp only [List.map_cons, List.sum_cons]
      rw [ih]
      ring
    | false =>
      simp only [Inventory.total_inventory_value, List.filter_cons, hexp,
        Bool.not_false, List.map_cons, List.sum_cons] at ih ⊢
      simp only [Bool.false_eq_true, if_false, if_true]
      simp only [List.map_cons, List.sum_cons]
      rw [ih]
      ring

/-- **C6.** On a store of dated products with unique keys,
`remove_expired_products` removes exactly the Grocery items expired
strictly before today (everything else stays), returns the removed
products in order, and the total value drops by exactly the removed
items' total value. -/
theorem sweep_removes_exactly_expired (inv : Inventory) (today : PyDate)
    (hnd : (inv.products.map Prod.fst).Nodup)
    (hdated : ∀ kv ∈ inv.products, groceryDated kv.2 = true) :
    inv.remove_expired_products today =
      (.ok ((inv.products.filter (fun kv => expiredb kv.2 today)).map Prod.snd),
        ⟨inv.products.filter (fun kv => !(expiredb kv.2 today))⟩) ∧
    Inventory.total_inventory_value
        ⟨inv.products.filter (fun kv => !(expiredb kv.2 today))⟩ =
      inv.total_inventory_value -
        (((inv.products.filter (fun kv => expiredb kv.2 today)).map Prod.snd).map
          Product.get_total_value).sum := by
  constructor
  · unfold Inventory.remove_expired_products
    rw [sweepGo_eq today inv.products inv.products hdated]
    have hdel : delKeys inv.products
        ((inv.products.filter (fun kv => expiredb kv.2 today)).map Prod.fst) =
        inv.products.filter (fun kv => !(expiredb kv.2 today)) := by
      rw [delKeys_eq_filter]
      apply List.filter_congr
      intro kv hkv
      rw [keyMem_expired_iff hnd kv hkv]
    rw [hdel]
  · exact sweep_total inv.products today


/-- Witness for C6: relative to `todayW = 2024-06-15`, the sweep on
`invSweepW` removes exactly the Grocery expired the day before and the
total value drops by its value. -/
theorem sweep_removes_exactly_expired_witness :
    Inventory.remove_expired_products invSweepW todayW =
      (.ok ((invSweepW.products.filter
          (fun kv => expiredb kv.2 todayW)).map Prod.snd),
        ⟨invSweepW.products.filter (fun kv => !(expiredb kv.2 todayW))⟩) ∧
    Inventory.total_inventory_value
        ⟨invSweepW.products.filter (fun kv => !(expiredb kv.2 todayW))⟩ =
      invSweepW.total_inventory_value -
        (((invSweepW.products.filter
            (fun kv => expiredb kv.2 todayW)).map Prod.snd).map
          Product.get_total_value).sum :=
  sweep_removes_exactly_expired invSweepW todayW (by decide) (by decide)

/-- A key that is absent reads as `None` through `get`. -/
theorem jget_of_not_hasKey (data : Record) (k : String)
    (h : recHasKey data k = false) : jget data k = .jnull := by
  unfold recHasKey at h
  unfold jget
  cases hf : data.find? (fun kv => kv.1 == k) with
  | none => rfl
  | some kv => rw [hf] at h; simp at h

/-- Counterexample for C2: deserializing an Electronics record that lacks
`warranty_years` and `brand` succeeds but stores `None` (JSON null) in
those fields, not the zero/empty values the claim asserts. -/
theorem from_dict_absent_zero_counterexample :
    Product.from_dict (baseRec "Electronics" "e1" "Mouse" 5 3) =
      .ok ⟨"e1", "Mouse", 5, 3, .electronics .jnull .jnull⟩ ∧
    Product.from_dict (baseRec "Electronics" "e1" "Mouse" 5 3) ≠
      .ok ⟨"e1", "Mouse", 5, 3, .electronics (.jint 0) (.jstr "")⟩ := by
  constructor
  · rfl
  · intro h
    rw [show Product.from_dict (baseRec "Electronics" "e1" "Mouse" 5 3) =
        .ok ⟨"e1", "Mouse", 5, 3, .electronics .jnull .jnull⟩ from rfl] at h
    simp at h

/-- **C2 (amended).** For a record whose tag is Electronics, Grocery or
Clothing and whose common fields deserialize, `from_dict` succeeds, and
every absent optional variant-specific field is stored as `None` (JSON
null) — zero/empty values are not substituted. -/
theorem from_dict_absent_defaults_none (data : Record) (pid nm : String)
    (pr : ℚ) (q : Int) (k : String)
    (hc : readCommon data = .ok (pid, nm, pr, q)) :
    (recHasKey data k = false → jget data k = .jnull) ∧
    (jget data "type" = .jstr "Electronics" →
      Product.from_dict data = .ok ⟨pid, nm, pr, q,
        .electronics (jget data "warranty_years") (jget data "brand")⟩) ∧
    (jget data "type" = .jstr "Grocery" →
      recHasKey data "expiry_date" = false →
      Product.from_dict data = .ok ⟨pid, nm, pr, q, .grocery none⟩) ∧
    (jget data "type" = .jstr "Clothing" →
      Product.from_dict data = .ok ⟨pid, nm, pr, q,
        .clothing (jget data "size") (jget data "material")⟩) := by
  refine ⟨jget_of_not_hasKey data k, ?_, ?_, ?_⟩
  · intro ht
    unfold Product.from_dict
    rw [ht, if_pos rfl, hc]
    rfl
  · intro ht habs
    unfold Product.from_dict
    rw [ht, if_neg (by simp), if_pos rfl, hc,
      jget_of_not_hasKey data "expiry_date" habs]
    rfl
  · intro ht
    unfold Product.from_dict
    rw [ht, if_neg (by simp), if_neg (by simp), if_pos rfl, hc]
    rfl

/-- Witness for C2 (amended): a Grocery record with no `expiry_date` key
deserializes to a Grocery whose stored expiry date is `None`. -/
theorem from_dict_absent_defaults_none_witness :
    Product.from_dict (baseRec "Grocery" "g1" "Milk" 2 4) =
      .ok ⟨"g1", "Milk", 2, 4, .grocery none⟩ :=
  (from_dict_absent_defaults_none (baseRec "Grocery" "g1" "Milk" 2 4)
    "g1" "Milk" 2 4 "expiry_date" rfl).2.2.1 rfl rfl

/-- Digits print as digit characters. -/
theorem digitChar_isDigit {n : Nat} (h : n < 10) :
    (digitChar n).isDigit = true := by
  interval_cases n <;> decide

/-- Reading back a printed digit gives the digit. -/
theorem digitVal_digitChar {n : Nat} (h : n < 10) :
    digitVal (digitChar n) = n := by
  interval_cases n <;> decide

/-- `strptime` inverts `isoformat` on every representable date. -/
theorem parse_isoformat (d : PyDate) (h : validDateb d = true) :
    parseDate (isoformat d) = .ok d := by
  obtain ⟨y, m, dd⟩ := d
  have hb : 1 ≤ y ∧ y ≤ 9999 ∧ 1 ≤ m ∧ m ≤ 12 ∧ 1 ≤ dd ∧
      dd ≤ daysInMonth y m := by
    unfold validDateb at h
    simp only [Bool.and_eq_true, decide_eq_true_eq] at h
    exact ⟨h.1.1.1.1.1, h.1.1.1.1.2, h.1.1.1.2, h.1.1.2, h.1.2, h.2⟩
  obtain ⟨h1, h2, h3, h4, h5, h6⟩ := hb
  have hmax : daysInMonth y m ≤ 31 := by
    unfold daysInMonth
    split_ifs <;> omega
  have hy1 : y / 1000 < 10 := by omega
  have hy2 : y / 100 % 10 < 10 := by omega
  have hy3 : y / 10 % 10 < 10 := by omega
  have hy4 : y % 10 < 10 := by omega
  have hm1 : m / 10 < 10 := by omega
  have hm2 : m % 10 < 10 := by omega
  have hd1 : dd / 10 < 10 := by omega
  have hd2 : dd % 10 < 10 := by omega
  unfold isoformat parseDate
  dsimp only
  rw [if_pos ⟨rfl, rfl, digitChar_isDigit hy1, digitChar_isDigit hy2,
    digitChar_isDigit hy3, digitChar_isDigit hy4, digitChar_isDigit hm1,
    digitChar_isDigit hm2, digitChar_isDigit hd1, digitChar_isDigit hd2⟩]
  rw [digitVal_digitChar hy1, digitVal_digitChar hy2, digitVal_digitChar hy3,
    digitVal_digitChar hy4, digitVal_digitChar hm1, digitVal_digitChar hm2,
    digitVal_digitChar hd1, digitVal_digitChar hd2]
  have e1 : y / 100 / 10 = y / 1000 := by rw [Nat.div_div_eq_div_mul]
  have e2 : y / 10 / 10 = y / 100 := by rw [Nat.div_div_eq_div_mul]
  have hy : y / 1000 * 1000 + y / 100 % 10 * 100 + y / 10 % 10 * 10 + y % 10 = y := by
    omega
  have hm : m / 10 * 10 + m % 10 = m := by omega
  have hdd : dd / 10 * 10 + dd % 10 = dd := by omega
  rw [hy, hm, hdd]
  unfold mkDate
  rw [if_pos ⟨h1, h3, h4, h5, h6⟩]

/-- The common fields written by `to_dict` read back unchanged, whatever
variant-specific entries follow them. -/
theorem readCommon_base (t pid nm : String) (pr : ℚ) (q : Int)
    (extras : Record) :
    readCommon (baseRec t pid nm pr q ++ extras) = .ok (pid, nm, pr, q) := rfl

/-- A parseable expiry string reads back as the parsed date. -/
theorem readExpiry_str {s : String} {dt : PyDate} (h : parseDate s = .ok dt) :
    readExpiry (.jstr s) = .ok (some dt) := by
  unfold readExpiry
  dsimp only
  rw [h]

/-- `to_dict` succeeds on every well-formed product. -/
theorem to_dict_ok_of_WF (p : Product) (h : productWFb p = true) :
    ∃ r, p.to_dict = .ok r := by
  unfold Product.to_dict
  cases hv : p.variant with
  | electronics w b => exact ⟨_, rfl⟩
  | clothing s m => exact ⟨_, rfl⟩
  | grocery e =>
    cases e with
    | some d => exact ⟨_, rfl⟩
    | none =>
      unfold productWFb at h
      rw [hv] at h
      simp at h

/-- `from_dict` on a Grocery record whose expiry string parses. -/
theorem from_dict_grocery_rec (pid nm : String) (pr : ℚ) (q : Int)
    (s : String) (dt : PyDate) (hs : parseDate s = .ok dt) :
    Product.from_dict
        (baseRec "Grocery" pid nm pr q ++ [("expiry_date", JValue.jstr s)]) =
      .ok ⟨pid, nm, pr, q, .grocery (some dt)⟩ := by
  have ht : jget (baseRec "Grocery" pid nm pr q ++
      [("expiry_date", JValue.jstr s)]) "type" = JValue.jstr "Grocery" := rfl
  have he : jget (baseRec "Grocery" pid nm pr q ++
      [("expiry_date", JValue.jstr s)]) "expiry_date" = JValue.jstr s := rfl
  unfold Product.from_dict
  rw [ht, if_neg (by simp), if_pos rfl, readCommon_base, he,
    readExpiry_str hs]
  rfl

/-- Deserialization inverts serialization on well-formed products. -/
theorem to_dict_from_dict (p : Product) (r : Record)
    (hWF : productWFb p = true) (hd : p.to_dict = .ok r) :
    Product.from_dict r = .ok p := by
  obtain ⟨pid, nm, pr, q, v⟩ := p
  cases v with
  | electronics w b =>
    unfold Product.to_dict at hd
    dsimp only at hd
    injection hd with hd
    subst hd
    rfl
  | grocery e =>
    cases e with
    | none =>
      simp [productWFb] at hWF
    | some dt =>
      have hv : validDateb dt = true := by
        simpa [productWFb] using hWF
      unfold Product.to_dict at hd
      dsimp only at hd
      injection hd with hd
      subst hd
      exact from_dict_grocery_rec pid nm pr q (isoformat dt) dt
        (parse_isoformat dt hv)
  | clothing s m =>
    unfold Product.to_dict at hd
    dsimp only at hd
    injection hd with hd
    subst hd
    rfl

/-- Saving a list of well-formed entries succeeds, and loading the saved
records yields exactly the stored products in order. -/
theorem dumpRecords_loadRecords (l : List (String × Product))
    (hWF : ∀ kv ∈ l, productWFb kv.2 = true) :
    ∃ recs, dumpRecords l = .ok recs ∧
      loadRecords recs = .ok (l.map Prod.snd) := by
  induction l with
  | nil => exact ⟨[], rfl, rfl⟩
  | cons kv rest ih =>
    have hWFh : productWFb kv.2 = true := hWF kv (List.mem_cons_self _ _)
    have hWFr : ∀ x ∈ rest, productWFb x.2 = true :=
      fun x hx => hWF x (List.mem_cons_of_mem _ hx)
    obtain ⟨recs, hdr, hlr⟩ := ih hWFr
    obtain ⟨r, hr⟩ := to_dict_ok_of_WF kv.2 hWFh
    refine ⟨r :: recs, ?_, ?_⟩
    · unfold dumpRecords
      rw [hr, hdr]
    · unfold loadRecords
      rw [to_dict_from_dict kv.2 r hWFh hr, hlr]
      rfl

/-- Building the dict from products with pairwise-distinct ids just pairs
each product with its id, preserving order. -/
theorem dictBuild_of_nodup :
    ∀ (ps : List Product) (acc : List (String × Product)),
      (∀ p ∈ ps, dictHasKey acc p.product_id = false) →
      (ps.map Product.product_id).Nodup →
      ps.foldl (fun acc p => dictInsert acc p.product_id p) acc =
        acc ++ ps.map (fun p => (p.product_id, p)) := by
  intro ps
  induction ps with
  | nil => intro acc h1 h2; simp
  | cons p rest ih =>
    intro acc h1 h2
    rw [List.foldl_cons]
    have hno : dictHasKey acc p.product_id = false :=
      h1 p (List.mem_cons_self _ _)
    have hins : dictInsert acc p.product_id p = acc ++ [(p.product_id, p)] := by
      unfold dictInsert
      rw [if_neg (by simp [hno])]
    rw [hins]
    rw [List.map_cons, List.nodup_cons] at h2
    obtain ⟨hp, hrest⟩ := h2
    have hacc : ∀ x ∈ rest,
        dictHasKey (acc ++ [(p.product_id, p)]) x.product_id = false := by
      intro x hx
      have hx1 : dictHasKey acc x.product_id = false :=
        h1 x (List.mem_cons_of_mem _ hx)
      have hx2 : ¬(x.product_id = p.product_id) := by
        intro hEq
        apply hp
        rw [← hEq]
        exact List.mem_map_of_mem Product.product_id hx
      have hx3 : ¬p.product_id = x.product_id := fun hEq => hx2 hEq.symm
      unfold dictHasKey at hx1 ⊢
      rw [List.any_append, hx1]
      simp [beq_eq_false_iff_ne, hx3]
    rw [ih (acc ++ [(p.product_id, p)]) hacc hrest, List.map_cons,
      List.append_assoc]
    rfl

/-- `dictBuild` on products with distinct ids. -/
theorem dictBuild_map (ps : List Product)
    (hnd : (ps.map Product.product_id).Nodup) :
    dictBuild ps = ps.map (fun p => (p.product_id, p)) := by
  unfold dictBuild
  rw [dictBuild_of_nodup ps [] (fun p hp => rfl) hnd]
  simp

/-- **C5.** For every store whose entries are keyed by their product's id,
with pairwise-distinct ids and well-formed products (groceries carry a
representable expiry date), saving and loading into a fresh store
reproduces the collection exactly: same ids, same variant tags, all fields
equal, the expiry date surviving its ISO-8601 round trip. -/
theorem save_load_roundtrip (inv : Inventory)
    (hkeys : ∀ kv ∈ inv.products, kv.1 = kv.2.product_id)
    (hnd : (inv.products.map Prod.fst).Nodup)
    (hWF : ∀ kv ∈ inv.products, productWFb kv.2 = true) :
    saveLoad inv = (.ok (), inv) := by
  obtain ⟨recs, hdr, hlr⟩ := dumpRecords_loadRecords inv.products hWF
  have h1 : saveLoad inv = Inventory.load_from_file ⟨[]⟩ (.json recs) := by
    unfold saveLoad Inventory.save_to_file
    rw [hdr]
  rw [h1]
  simp only [Inventory.load_from_file]
  rw [hlr]
  have hid : (inv.products.map Prod.snd).map Product.product_id =
      inv.products.map Prod.fst := by
    rw [List.map_map]
    apply List.map_congr_left
    intro kv hkv
    exact (hkeys kv hkv).symm
  have hnd2 : ((inv.products.map Prod.snd).map Product.product_id).Nodup := by
    rw [hid]; exact hnd
  show ((Except.ok (), (⟨dictBuild (inv.products.map Prod.snd)⟩ : Inventory)) :
      Except PyError Unit × Inventory) = (.ok (), inv)
  rw [dictBuild_map _ hnd2, List.map_map]
  have hmap : inv.products.map
      ((fun p => (p.product_id, p)) ∘ Prod.snd) = inv.products := by
    have hmid : inv.products.map ((fun p => (p.product_id, p)) ∘ Prod.snd) =
        inv.products.map id := by
      apply List.map_congr_left
      intro kv hkv
      simp only [Function.comp_apply, id_eq]
      rw [← hkeys kv hkv]
    rw [hmid, List.map_id]
  rw [hmap]

/-- Witness for C5: the three-variant store `invRoundW` survives the save
and load round trip unchanged. -/
theorem save_load_roundtrip_witness :
    saveLoad invRoundW = (.ok (), invRoundW) :=
  save_load_roundtrip invRoundW (by decide) (by decide) (by decide)
